import Mathlib

/-!
Verification of the Ink-genius tattoo-design editor.

The development shallowly embeds the TypeScript sources:
* the zustand store (`CONFIG`, `addToHistory`, `undo`, `redo`, `clearHistory`,
  `updateLayers`, `toggleLayerLock`, `toggleLayerVisibility`, ...),
* the `DatabaseService` wrapper over IndexedDB (`saveDesign`, `loadDesign`,
  `getAllDesigns`),
* the `TattooAIService` wrapper over the generative-image API and its
  Sidebar call site.

External library state (the fabric.js canvas, the browser database, the
network) is made explicit: the canvas appears either as its serialized JSON
string or as its list of objects, the database as a list of records, and the
AI model as a function from the request prompt to a response value.
-/

namespace InkGenius

/-- The `CANVAS` section of the `CONFIG` constant (store module, lines 6-11). -/
structure CanvasConfig where
  WIDTH : Nat
  HEIGHT : Nat
  MAX_HISTORY : Nat
deriving DecidableEq

/-- The `CONFIG` constant's shape (store module, lines 6-21). -/
structure Config where
  CANVAS : CanvasConfig
  STYLES : List String
  BODY_PARTS : List String

/-- The `CONFIG` constant (store module, lines 6-21). -/
def CONFIG : Config :=
  { CANVAS := { WIDTH := 1024, HEIGHT := 768, MAX_HISTORY := 50 }
  , STYLES := ["Traditional", "Neo-Traditional", "Realism", "Watercolor",
      "Geometric", "Minimalist", "Blackwork", "Japanese",
      "American Traditional", "Tribal", "Biomechanical", "Dotwork"]
  , BODY_PARTS := ["Arm", "Forearm", "Shoulder", "Back", "Chest",
      "Leg", "Thigh", "Calf", "Ankle", "Wrist", "Neck"] }

/-- The history-related slice of the zustand store's `AppState`.  The fabric
canvas is represented by its serialized content: `canvas = some s` means the
canvas object is present and `JSON.stringify(canvas.toJSON())` yields `s`;
`none` models the initial `canvas: null`.  `historyIndex` is an `Int`
because the store initializes it to `-1`. -/
structure HistoryState where
  canvas : Option String
  history : List String
  historyIndex : Int
deriving DecidableEq

/-- JavaScript array indexing `a[i]` as used in guards such as
`prev.history[prev.historyIndex]`: a negative or out-of-range index yields
`undefined`, modelled as `none`. -/
def jsIndex (l : List String) (i : Int) : Option String :=
  if i < 0 then none else l.get? i.toNat

/-- JavaScript `a.slice(0, e)`: a negative end offset counts from the end of
the array. -/
def jsSliceTo (l : List α) (e : Int) : List α :=
  if e < 0 then l.take (l.length - e.natAbs) else l.take e.toNat

/-- The store's initial history state: `canvas: null`, `history: []`,
`historyIndex: -1` (store module, lines 114-116). -/
def initialState : HistoryState :=
  { canvas := none, history := [], historyIndex := -1 }

/-- `addToHistory` (store module, lines 136-152): serialize the canvas; if the
snapshot equals `history[historyIndex]` do nothing; otherwise truncate the redo
tail with `slice(0, historyIndex + 1)`, push the snapshot, `shift()` away the
oldest entry when the length passes `CONFIG.CANVAS.MAX_HISTORY`, and point
`historyIndex` at the new last entry. -/
def addToHistory (s : HistoryState) : HistoryState :=
  match s.canvas with
  | none => s
  | some state =>
    if jsIndex s.history s.historyIndex = some state then s
    else
      let pushed := jsSliceTo s.history (s.historyIndex + 1) ++ [state]
      let newHistory :=
        if pushed.length > CONFIG.CANVAS.MAX_HISTORY then pushed.tail else pushed
      { s with history := newHistory, historyIndex := (newHistory.length : Int) - 1 }

/-- `undo` (store module, lines 154-167): when the canvas exists and
`historyIndex > 0`, load `history[historyIndex - 1]` into the canvas and
decrement `historyIndex`.  When the indexed entry does not exist,
`JSON.parse(undefined)` throws inside the promise and the store fields are
left untouched. -/
def undo (s : HistoryState) : HistoryState :=
  match s.canvas with
  | none => s
  | some _ =>
    if s.historyIndex > 0 then
      match jsIndex s.history (s.historyIndex - 1) with
      | some snap => { s with canvas := some snap, historyIndex := s.historyIndex - 1 }
      | none => s
    else s

/-- `redo` (store module, lines 169-182): symmetric to `undo`, guarded by
`historyIndex < history.length - 1`. -/
def redo (s : HistoryState) : HistoryState :=
  match s.canvas with
  | none => s
  | some _ =>
    if s.historyIndex < (s.history.length : Int) - 1 then
      match jsIndex s.history (s.historyIndex + 1) with
      | some snap => { s with canvas := some snap, historyIndex := s.historyIndex + 1 }
      | none => s
    else s

/-- `clearHistory` (store module, line 188). -/
def clearHistory (s : HistoryState) : HistoryState :=
  { s with history := [], historyIndex := -1 }

/-- One `addToHistory` call observed with the canvas serializing to `c` at the
moment of the call (the canvas object is mutated in place by editing events
between calls, so each call may see a different serialization). -/
def addToHistoryWith (c : Option String) (s : HistoryState) : HistoryState :=
  addToHistory { s with canvas := c }

theorem jsSliceTo_length_le (l : List α) (e : Int) : (jsSliceTo l e).length ≤ l.length := by
  unfold jsSliceTo
  split <;> simp [List.length_take]

theorem addToHistory_length_le (s : HistoryState)
    (h : s.history.length ≤ CONFIG.CANVAS.MAX_HISTORY) :
    (addToHistory s).history.length ≤ CONFIG.CANVAS.MAX_HISTORY := by
  obtain ⟨c, hist, hi⟩ := s
  cases c with
  | none => simpa [addToHistory] using h
  | some state =>
    simp only [addToHistory]
    split
    · exact h
    · have hsl : (jsSliceTo hist (hi + 1)).length ≤ hist.length := jsSliceTo_length_le hist (hi + 1)
      simp only [HistoryState.history] at *
      split
      next hgt =>
        simp only [List.length_tail, List.length_append, List.length_singleton] at *
        omega
      next hle =>
        simp only [List.length_append, List.length_singleton] at *
        omega

/-- C1: starting from the initial store state, no sequence of `addToHistory`
calls (each seeing whatever the canvas serializes to at that moment, possibly
no canvas at all) ever makes the history list longer than
`CONFIG.CANVAS.MAX_HISTORY = 50`. -/
theorem claim_C1 (snapshots : List (Option String)) :
    (snapshots.foldl (fun st c => addToHistoryWith c st) initialState).history.length
      ≤ CONFIG.CANVAS.MAX_HISTORY := by
  have key : ∀ (cs : List (Option String)) (s : HistoryState),
      s.history.length ≤ CONFIG.CANVAS.MAX_HISTORY →
      (cs.foldl (fun st c => addToHistoryWith c st) s).history.length
        ≤ CONFIG.CANVAS.MAX_HISTORY := by
    intro cs
    induction cs with
    | nil => intro s h; simpa using h
    | cons c rest ih =>
      intro s h
      refine ih _ ?_
      exact addToHistory_length_le _ (by simpa using h)
  exact key snapshots initialState (by simp [initialState])

/-- The store invariant relating `historyIndex` to the history list:
`historyIndex` stays within `[-1, history.length - 1]` and is `-1` exactly
when the history is empty. -/
def Inv (s : HistoryState) : Prop :=
  -1 ≤ s.historyIndex ∧ s.historyIndex ≤ (s.history.length : Int) - 1 ∧
    (s.historyIndex = -1 ↔ s.history = [])

instance (s : HistoryState) : Decidable (Inv s) := by
  unfold Inv; infer_instance

theorem inv_mk_last (c : Option String) (l : List String) (hne : l ≠ []) :
    Inv { canvas := c, history := l, historyIndex := (l.length : Int) - 1 } := by
  have hpos : 0 < l.length := List.length_pos.mpr hne
  unfold Inv
  dsimp only
  refine ⟨by omega, by omega, ?_, fun h => absurd h hne⟩
  intro h
  exfalso
  omega

theorem inv_addToHistory (s : HistoryState) (h : Inv s) : Inv (addToHistory s) := by
  obtain ⟨c, hist, hi⟩ := s
  cases c with
  | none => simpa [addToHistory] using h
  | some state =>
    simp only [addToHistory]
    split
    · exact h
    · set pushed := jsSliceTo hist (hi + 1) ++ [state] with hp
      have hplen : 1 ≤ pushed.length := by
        rw [hp]
        simp
      by_cases hgt : pushed.length > CONFIG.CANVAS.MAX_HISTORY
      · simp only [if_pos hgt]
        apply inv_mk_last
        have hmax : CONFIG.CANVAS.MAX_HISTORY = 50 := rfl
        have htl : 0 < pushed.tail.length := by
          rw [List.length_tail]
          omega
        exact List.length_pos.mp htl
      · simp only [if_neg hgt]
        apply inv_mk_last
        rw [hp]
        simp

theorem inv_undo (s : HistoryState) (h : Inv s) : Inv (undo s) := by
  obtain ⟨c, hist, hi⟩ := s
  unfold Inv at h
  dsimp only at h
  obtain ⟨h1, h2, h3⟩ := h
  cases c with
  | none => exact ⟨h1, h2, h3⟩
  | some state =>
    simp only [undo]
    split
    next hpos =>
      split
      next snap heq =>
        have hne : hist ≠ [] := by
          intro hnil
          have := h3.mpr hnil
          omega
        have hlen : 0 < hist.length := List.length_pos.mpr hne
        unfold Inv
        dsimp only
        refine ⟨by omega, by omega, ?_, fun hnil => absurd hnil hne⟩
        intro hcon
        exfalso
        omega
      next heq => exact ⟨h1, h2, h3⟩
    next => exact ⟨h1, h2, h3⟩

theorem inv_redo (s : HistoryState) (h : Inv s) : Inv (redo s) := by
  obtain ⟨c, hist, hi⟩ := s
  unfold Inv at h
  dsimp only at h
  obtain ⟨h1, h2, h3⟩ := h
  cases c with
  | none => exact ⟨h1, h2, h3⟩
  | some state =>
    simp only [redo]
    split
    next hlt =>
      split
      next snap heq =>
        have hne : hist ≠ [] := by
          intro hnil
          have h4 := h3.mpr hnil
          rw [hnil] at hlt
          simp at hlt
          omega
        have hlen : 0 < hist.length := List.length_pos.mpr hne
        unfold Inv
        dsimp only
        refine ⟨by omega, by omega, ?_, fun hnil => absurd hnil hne⟩
        intro hcon
        exfalso
        omega
      next heq => exact ⟨h1, h2, h3⟩
    next => exact ⟨h1, h2, h3⟩

theorem inv_clearHistory (s : HistoryState) : Inv (clearHistory s) := by
  refine ⟨by simp [clearHistory], by simp [clearHistory], by simp [clearHistory]⟩

/-- C9: the store invariant `-1 ≤ historyIndex ≤ history.length - 1` (with
`historyIndex = -1` exactly when the history is empty) holds in the initial
state and is preserved by `addToHistory`, `undo`, `redo` and `clearHistory`. -/
theorem claim_C9 :
    Inv initialState ∧
      ∀ s : HistoryState, Inv s →
        Inv (addToHistory s) ∧ Inv (undo s) ∧ Inv (redo s) ∧ Inv (clearHistory s) :=
  ⟨by simp [initialState, Inv],
   fun s h => ⟨inv_addToHistory s h, inv_undo s h, inv_redo s h, inv_clearHistory s⟩⟩

/-- Witness for C9 at a concrete mid-session state. -/
theorem claim_C9_witness :
    Inv (addToHistory { canvas := some "s2", history := ["s0", "s1"], historyIndex := 1 }) ∧
      Inv (undo { canvas := some "s2", history := ["s0", "s1"], historyIndex := 1 }) ∧
      Inv (redo { canvas := some "s2", history := ["s0", "s1"], historyIndex := 1 }) ∧
      Inv (clearHistory { canvas := some "s2", history := ["s0", "s1"], historyIndex := 1 }) :=
  claim_C9.2 { canvas := some "s2", history := ["s0", "s1"], historyIndex := 1 } (by decide)

/-- C2: with a non-null canvas and `historyIndex ≥ 1` (in an invariant-valid
state), `undo` loads the snapshot `history[historyIndex - 1]` into the canvas
and decrements `historyIndex` by exactly one, leaving the history list itself
unchanged; with `historyIndex ≤ 0` or a null canvas, `undo` changes nothing. -/
theorem claim_C2 :
    (∀ (s : HistoryState) (c : String), s.canvas = some c → 1 ≤ s.historyIndex → Inv s →
        ∃ snap, s.history.get? (s.historyIndex - 1).toNat = some snap ∧
          undo s = { s with canvas := some snap, historyIndex := s.historyIndex - 1 }) ∧
      ∀ s : HistoryState, (s.canvas = none ∨ s.historyIndex ≤ 0) → undo s = s := by
  constructor
  · intro s c hc hge hinv
    obtain ⟨cv, hist, hi⟩ := s
    unfold Inv at hinv
    dsimp only at hinv hc hge ⊢
    subst hc
    obtain ⟨h1, h2, h3⟩ := hinv
    have hidx : (hi - 1).toNat < hist.length := by omega
    refine ⟨hist.get ⟨(hi - 1).toNat, hidx⟩, (List.get?_eq_get hidx), ?_⟩
    simp only [undo]
    rw [if_pos (by omega : hi > 0)]
    have hj : jsIndex hist (hi - 1) = some (hist.get ⟨(hi - 1).toNat, hidx⟩) := by
      unfold jsIndex
      rw [if_neg (by omega : ¬hi - 1 < 0)]
      exact List.get?_eq_get hidx
    rw [hj]
  · intro s h
    obtain ⟨cv, hist, hi⟩ := s
    cases cv with
    | none => rfl
    | some c =>
      simp only [undo]
      rw [if_neg]
      rcases h with h | h
      · exact absurd h (by simp)
      · dsimp only at h
        omega

/-- Witness for C2: after a single edit (`history = [before, after]`,
`historyIndex = 1`), `undo` restores the snapshot taken before the edit. -/
theorem claim_C2_witness :
    ∃ snap, (["before", "after"] : List String).get? ((1 : Int) - 1).toNat = some snap ∧
      undo { canvas := some "after", history := ["before", "after"], historyIndex := 1 } =
        { canvas := some snap, history := ["before", "after"], historyIndex := (1 : Int) - 1 } :=
  claim_C2.1 { canvas := some "after", history := ["before", "after"], historyIndex := 1 }
    "after" rfl (by decide) (by decide)

/-- The history list a pushing `addToHistory` call produces: truncate the redo
tail, append the snapshot, drop the head when past the cap. -/
def histAfterPush (hist : List String) (hi : Int) (state : String) : List String :=
  let pushed := jsSliceTo hist (hi + 1) ++ [state]
  if pushed.length > CONFIG.CANVAS.MAX_HISTORY then pushed.tail else pushed

theorem jsIndex_append_last (l : List String) (a : String) :
    jsIndex (l ++ [a]) (((l ++ [a]).length : Int) - 1) = some a := by
  unfold jsIndex
  rw [if_neg (by simp)]
  have ht : (((l ++ [a]).length : Int) - 1).toNat = l.length := by
    simp
  rw [ht]
  exact List.get?_concat_length l a

theorem jsIndex_histAfterPush (hist : List String) (hi : Int) (state : String) :
    jsIndex (histAfterPush hist hi state)
      (((histAfterPush hist hi state).length : Int) - 1) = some state := by
  unfold histAfterPush
  dsimp only
  split
  next hgt =>
    cases hsl : jsSliceTo hist (hi + 1) with
    | nil =>
      rw [hsl] at hgt
      simp only [List.nil_append, List.length_singleton] at hgt
      exact absurd hgt (by decide)
    | cons x xs =>
      simp only [List.cons_append, List.tail_cons]
      exact jsIndex_append_last xs state
  next => exact jsIndex_append_last _ state

/-- C10: when the canvas's current serialization already equals
`history[historyIndex]`, a further `addToHistory` call leaves the whole store
state (history and historyIndex included) exactly unchanged; consequently
`addToHistory` is idempotent, so repeated calls without an intervening edit
push at most one snapshot. -/
theorem claim_C10 :
    (∀ (s : HistoryState) (c : String), s.canvas = some c →
        jsIndex s.history s.historyIndex = some c → addToHistory s = s) ∧
      ∀ s : HistoryState, addToHistory (addToHistory s) = addToHistory s := by
  have guard : ∀ (s : HistoryState) (c : String), s.canvas = some c →
      jsIndex s.history s.historyIndex = some c → addToHistory s = s := by
    intro s c hc hh
    obtain ⟨cv, hist, hi⟩ := s
    dsimp only at hc hh
    subst hc
    simp only [addToHistory]
    rw [if_pos hh]
  refine ⟨guard, ?_⟩
  intro s
  obtain ⟨cv, hist, hi⟩ := s
  cases cv with
  | none => rfl
  | some state =>
    by_cases hg : jsIndex hist hi = some state
    · have h1 : addToHistory { canvas := some state, history := hist, historyIndex := hi }
          = { canvas := some state, history := hist, historyIndex := hi } := by
        simp only [addToHistory]
        rw [if_pos hg]
      rw [h1]
      exact h1
    · have h1 : addToHistory { canvas := some state, history := hist, historyIndex := hi }
          = { canvas := some state,
              history := histAfterPush hist hi state,
              historyIndex := ((histAfterPush hist hi state).length : Int) - 1 } := by
        simp only [addToHistory, histAfterPush]
        rw [if_neg hg]
      rw [h1]
      apply guard _ state rfl
      exact jsIndex_histAfterPush hist hi state

/-- Witness for C10: a repeated `addToHistory` with the canvas still
serializing to the snapshot at `historyIndex` is a no-op. -/
theorem claim_C10_witness :
    addToHistory { canvas := some "s1", history := ["s0", "s1"], historyIndex := 1 } =
      { canvas := some "s1", history := ["s0", "s1"], historyIndex := 1 } :=
  claim_C10.1 { canvas := some "s1", history := ["s0", "s1"], historyIndex := 1 } "s1" rfl
    (by decide)

/-! ### DatabaseService: the IndexedDB wrapper (service module, lines 6-48) -/

/-- A record of the `designs` object store (`InkGeniusDB['designs']['value']`). -/
structure Design where
  id : String
  canvas : String
  thumbnail : String
  name : String
  style : String
  timestamp : String
deriving DecidableEq

/-- The caller-supplied part of a design
(`Omit<InkGeniusDB['designs']['value'], 'id' | 'timestamp'>`). -/
structure DesignInput where
  canvas : String
  thumbnail : String
  name : String
  style : String
deriving DecidableEq

/-- The `designs` object store, keyed by the `id` field (`keyPath: 'id'`).
`db.put` overwrites the record stored under the same key, otherwise inserts. -/
def dbPut : List Design → Design → List Design
  | [], d => [d]
  | e :: rest, d => if e.id = d.id then d :: rest else e :: dbPut rest d

/-- `db.get('designs', id)`: the record stored under the key, if any. -/
def dbGet (db : List Design) (id : String) : Option Design :=
  db.find? fun e => e.id = id

/-- `Date.now().toString()`: the identifier generated by `saveDesign`
(service module, line 22), as a function of the clock reading. -/
def designIdOf (now : Nat) : String := toString now

/-- `new Date().toISOString()` — the timestamp string recorded by
`saveDesign`.  The formatting is done by the browser's `Date` object; its
exact text is irrelevant to every claim, so the clock reading is rendered
directly. -/
def toISOString (now : Nat) : String := toString now

/-- The record `saveDesign` assembles (service module, lines 23-27). -/
def designRecord (input : DesignInput) (now : Nat) : Design :=
  { id := designIdOf now
  , canvas := input.canvas
  , thumbnail := input.thumbnail
  , name := input.name
  , style := input.style
  , timestamp := toISOString now }

/-- `DatabaseService.saveDesign` (service module, lines 20-30): build the
record, `put` it, and return the generated identifier.  `now` is the
`Date.now()` reading at the moment of the call. -/
def saveDesign (db : List Design) (input : DesignInput) (now : Nat) :
    String × List Design :=
  (designIdOf now, dbPut db (designRecord input now))

/-- `DatabaseService.loadDesign` (service module, lines 32-35). -/
def loadDesign (db : List Design) (id : String) : Option Design :=
  dbGet db id

theorem dbGet_dbPut_self (db : List Design) (d : Design) :
    dbGet (dbPut db d) d.id = some d := by
  induction db with
  | nil => simp [dbPut, dbGet, List.find?]
  | cons e rest ih =>
    by_cases he : e.id = d.id
    · simp [dbPut, he, dbGet, List.find?]
    · simp only [dbPut, if_neg he]
      simpa [dbGet, List.find?, he] using ih

/-- C3: saving a design and then loading it by the identifier `saveDesign`
returned yields a stored record whose `canvas` field is exactly the
serialized canvas content that was saved. -/
theorem claim_C3 (db : List Design) (input : DesignInput) (now : Nat) :
    ∃ rec, loadDesign (saveDesign db input now).2 (saveDesign db input now).1 = some rec ∧
      rec.canvas = input.canvas := by
  refine ⟨designRecord input now, ?_, rfl⟩
  have h : (designRecord input now).id = designIdOf now := rfl
  simpa [saveDesign, loadDesign, h] using dbGet_dbPut_self db (designRecord input now)

/-- The `upgrade` callback (service module, lines 10-17) creates the
`designs` store with `keyPath: 'id'` and one index, named `timestamp`,
keyed on the `timestamp` field. -/
def designsStoreIndexes : List (String × String) := [("timestamp", "timestamp")]

/-- Comparison by the `timestamp` field — the key order of the `timestamp`
index (IndexedDB string keys are ordered lexicographically by code unit, the
order `≤` on `String` denotes). -/
def byTimestamp (a b : Design) : Prop := a.timestamp ≤ b.timestamp

instance : DecidableRel byTimestamp := fun a b => by
  unfold byTimestamp; infer_instance

instance : IsTotal Design byTimestamp :=
  ⟨fun a b => le_total a.timestamp b.timestamp⟩

instance : IsTrans Design byTimestamp :=
  ⟨fun _ _ _ hab hbc => le_trans hab hbc⟩

/-- `db.getAllFromIndex('designs', 'timestamp')`: IndexedDB returns every
record of the store, ordered ascending by the index key, here the record's
`timestamp` field. -/
def getAllFromIndexTimestamp (db : List Design) : List Design :=
  List.insertionSort byTimestamp db

/-- `DatabaseService.getAllDesigns` (service module, lines 37-40). -/
def getAllDesigns (db : List Design) : List Design :=
  getAllFromIndexTimestamp db

/-- C6: `getAllDesigns` returns every stored design (a permutation of the
store's contents), ordered ascending by the timestamp field, and the
timestamp field of a saved record is exactly the ISO clock reading recorded
by `saveDesign` at save time. -/
theorem claim_C6 (db : List Design) :
    (getAllDesigns db).Perm db ∧ (getAllDesigns db).Sorted byTimestamp ∧
      ∀ (input : DesignInput) (now : Nat),
        (designRecord input now).timestamp = toISOString now :=
  ⟨List.perm_insertionSort byTimestamp db,
   List.sorted_insertionSort byTimestamp db,
   fun _ _ => rfl⟩

/-! ### TattooAIService (service module, lines 50-133) and its Sidebar call site -/

/-- The `GoogleGenAI` client value, holding the key it was constructed with. -/
structure GoogleGenAI where
  apiKey : String
deriving DecidableEq

/-- `TattooAIService` wraps a `GoogleGenAI` client in its `ai` field. -/
structure TattooAIService where
  ai : GoogleGenAI
deriving DecidableEq

/-- The `image` object of one generated image of the model response. -/
structure GeneratedImageData where
  imageBytes : String
deriving DecidableEq

/-- One element of the response's `generatedImages` array. -/
structure GeneratedImage where
  image : GeneratedImageData
deriving DecidableEq

/-- The response of `ai.models.generateImages`: the `generatedImages` field
may be absent (`none`) or present as a possibly empty array. -/
structure GenerateImagesResponse where
  generatedImages : Option (List GeneratedImage)
deriving DecidableEq

/-- The `TattooAIService` constructor (lines 54-59): an empty API key is
falsy, so construction throws; the throw is modelled as `Except.error`. -/
def TattooAIService.create (apiKey : String) : Except String TattooAIService :=
  if apiKey = "" then
    Except.error "API_KEY is not set. Please set it in your environment variables."
  else Except.ok { ai := { apiKey := apiKey } }

/-- The enhanced prompt `generateDesign` sends to the model (line 62). -/
def enhancedPromptOf (prompt style : String) : String :=
  "A high-quality, professional tattoo design in a " ++ style ++
    " style. The subject is: \"" ++ prompt ++
    "\". The design should have clean, bold lines suitable for a stencil, with appropriate shading for the specified style. The background should be solid white."

/-- `TattooAIService.generateDesign` (lines 61-81).  The awaited network call
`ai.models.generateImages` is abstracted as the function `model` from the
sent prompt to the response it resolves with.  A response carrying at least
one generated image yields a png data URI of the first image's bytes
(JavaScript treats an empty array as truthy, so the branch also tests
`.length > 0`); otherwise the method throws. -/
def TattooAIService.generateDesign (_svc : TattooAIService)
    (model : String → GenerateImagesResponse) (prompt style : String) :
    Except String String :=
  let response := model (enhancedPromptOf prompt style)
  match response.generatedImages with
  | some (first :: _) => Except.ok ("data:image/png;base64," ++ first.image.imageBytes)
  | some [] => Except.error "AI failed to generate a design."
  | none => Except.error "AI failed to generate a design."

/-- C5: `generateDesign` returns a `data:image/png;base64,`-prefixed data URI
of the first generated image's bytes exactly when the response carries at
least one generated image, and throws `'AI failed to generate a design.'`
exactly when the response's image list is absent or empty. -/
theorem claim_C5 (svc : TattooAIService) (model : String → GenerateImagesResponse)
    (prompt style : String) :
    (svc.generateDesign model prompt style = Except.error "AI failed to generate a design."
        ↔ (model (enhancedPromptOf prompt style)).generatedImages = none ∨
            (model (enhancedPromptOf prompt style)).generatedImages = some []) ∧
      ∀ (first : GeneratedImage) (rest : List GeneratedImage),
        (model (enhancedPromptOf prompt style)).generatedImages = some (first :: rest) →
          svc.generateDesign model prompt style =
            Except.ok ("data:image/png;base64," ++ first.image.imageBytes) := by
  constructor
  · unfold TattooAIService.generateDesign
    cases h : (model (enhancedPromptOf prompt style)).generatedImages with
    | none => simp [h]
    | some l => cases l <;> simp [h]
  · intro first rest h
    unfold TattooAIService.generateDesign
    simp [h]

/-- Witness for C5 at a one-image response. -/
theorem claim_C5_witness :
    TattooAIService.generateDesign { ai := { apiKey := "key" } }
        (fun _ => { generatedImages := some [{ image := { imageBytes := "BYTES" } }] })
        "dragon" "Blackwork" =
      Except.ok ("data:image/png;base64," ++ "BYTES") :=
  (claim_C5 { ai := { apiKey := "key" } }
      (fun _ => { generatedImages := some [{ image := { imageBytes := "BYTES" } }] })
      "dragon" "Blackwork").2 { image := { imageBytes := "BYTES" } } [] rfl

/-- JavaScript `String.prototype.trim`: strip leading and trailing
whitespace (used by the Sidebar handler's `!prompt.trim()` guard). -/
def jsTrim (s : String) : String :=
  String.mk (((s.data.dropWhile Char.isWhitespace).reverse.dropWhile Char.isWhitespace).reverse)

/-- `export const aiService = new TattooAIService(process.env.API_KEY || '')`
(service module, line 133): this runs once, at module evaluation, with no
surrounding `try`/`catch`.  `apiKeyEnv` is the environment variable, `none`
when unset; `|| ''` coerces an absent value to the empty string. -/
def aiServiceInit (apiKeyEnv : Option String) : Except String TattooAIService :=
  TattooAIService.create (apiKeyEnv.getD "")

/-- What the user observes from one run of the generate-design feature. -/
inductive FlowOutcome where
  /-- An exception escaped every handler (nothing wraps module evaluation). -/
  | uncaughtError (message : String)
  /-- The click handler returned early (blank prompt or no canvas). -/
  | notRun
  /-- The generated image was added to the canvas. -/
  | canvasUpdated (imageUrl : String)
  /-- `setModalContent` displayed a modal with this title and message. -/
  | modal (title message : String)
deriving DecidableEq

/-- The generate-design flow: module initialization of `aiService` (service
module, line 133) followed by the Sidebar `generateDesign` click handler
(Sidebar.tsx, lines 15-33).  The handler returns early when the trimmed
prompt is empty or the canvas is null; otherwise it awaits the service call
inside `try`/`catch`, whose `catch` shows the error message in an `'Error'`
modal. -/
def runGenerateDesignFlow (apiKeyEnv : Option String) (hasCanvas : Bool)
    (model : String → GenerateImagesResponse) (prompt style : String) : FlowOutcome :=
  match aiServiceInit apiKeyEnv with
  | Except.error msg => FlowOutcome.uncaughtError msg
  | Except.ok svc =>
    if jsTrim prompt = "" ∨ hasCanvas = false then FlowOutcome.notRun
    else
      match svc.generateDesign model prompt style with
      | Except.ok url => FlowOutcome.canvasUpdated url
      | Except.error msg => FlowOutcome.modal "Error" msg

/-- C4 as stated: every failure of an AI-service operation — the
missing-credentials failure included — is surfaced as a user-facing modal
rather than propagating uncaught, i.e. no run of the flow ends in an
uncaught exception. -/
def aiFailuresAllSurfaceAsModal : Prop :=
  ∀ (apiKeyEnv : Option String) (hasCanvas : Bool)
    (model : String → GenerateImagesResponse) (prompt style msg : String),
    runGenerateDesignFlow apiKeyEnv hasCanvas model prompt style ≠
      FlowOutcome.uncaughtError msg

/-- Counterexample to C4 as stated: with the API key unset, the
`TattooAIService` constructor throws during module evaluation (service
module, line 133), where no `try`/`catch` exists, so the missing-credentials
failure propagates uncaught instead of reaching any modal. -/
theorem claim_C4_counterexample :
    runGenerateDesignFlow none true (fun _ => { generatedImages := some [] })
        "dragon" "Blackwork" =
      FlowOutcome.uncaughtError
        "API_KEY is not set. Please set it in your environment variables." ∧
      ¬ aiFailuresAllSurfaceAsModal := by
  refine ⟨rfl, fun hall => ?_⟩
  exact hall none true (fun _ => { generatedImages := some [] }) "dragon" "Blackwork"
    "API_KEY is not set. Please set it in your environment variables." rfl

/-- C4 (amended): failures of the AI-service `generateDesign` operation at
its Sidebar call site — empty model output included — are caught there and
surfaced as an `'Error'` modal; the missing-credentials failure (empty API
key), however, is thrown while the module initializes `aiService` and
propagates uncaught. -/
theorem claim_C4 :
    (∀ (apiKeyEnv : Option String) (hasCanvas : Bool)
        (model : String → GenerateImagesResponse) (prompt style msg : String),
        apiKeyEnv.getD "" ≠ "" → jsTrim prompt ≠ "" → hasCanvas = true →
        TattooAIService.generateDesign { ai := { apiKey := apiKeyEnv.getD "" } }
            model prompt style = Except.error msg →
        runGenerateDesignFlow apiKeyEnv hasCanvas model prompt style =
          FlowOutcome.modal "Error" msg) ∧
      ∀ (apiKeyEnv : Option String) (hasCanvas : Bool)
        (model : String → GenerateImagesResponse) (prompt style : String),
        apiKeyEnv.getD "" = "" →
        runGenerateDesignFlow apiKeyEnv hasCanvas model prompt style =
          FlowOutcome.uncaughtError
            "API_KEY is not set. Please set it in your environment variables." := by
  constructor
  · intro env hasC model prompt style msg hk hp hcv herr
    have hguard : ¬(jsTrim prompt = "" ∨ hasC = false) := by
      subst hcv
      simpa using hp
    simp only [runGenerateDesignFlow, aiServiceInit, TattooAIService.create, if_neg hk,
      if_neg hguard, herr]
  · intro env hasC model prompt style hk
    simp only [runGenerateDesignFlow, aiServiceInit, TattooAIService.create, if_pos hk]

/-- Witness for C4 at an empty-image-list model response with the key set. -/
theorem claim_C4_witness :
    runGenerateDesignFlow (some "key") true (fun _ => { generatedImages := none })
        "dragon" "Blackwork" =
      FlowOutcome.modal "Error" "AI failed to generate a design." :=
  claim_C4.1 (some "key") true (fun _ => { generatedImages := none }) "dragon" "Blackwork"
    "AI failed to generate a design." (by decide) (by decide) rfl rfl

/-! ### Canvas objects and the derived layer list (store module, lines 103-111, 199-257) -/

/-- A fabric.js canvas object, restricted to the fields the store reads and
writes: the monkey-patched `id`, the fabric `type` tag, the i-text `text`
content, and the `selectable` / `evented` / `visible` flags (`type` and
`text` may be undefined, hence `Option`). -/
structure FabricObject where
  id : String
  objType : Option String
  text : Option String
  selectable : Bool
  evented : Bool
  visible : Bool
deriving DecidableEq

/-- Truthiness of an optional string: `undefined` and `''` are falsy. -/
def strTruthy : Option String → Bool
  | none => false
  | some s => s ≠ ""

/-- `s.charAt(0).toUpperCase() + s.slice(1)` (store module, line 108). -/
def capitalizeFirst (s : String) : String :=
  match s.data with
  | [] => ""
  | c :: cs => String.mk (c.toUpper :: cs)

/-- `getObjectName` (store module, lines 103-111). -/
def getObjectName (obj : FabricObject) : String :=
  if obj.objType = some "i-text" ∧ strTruthy obj.text then
    let sub := (obj.text.getD "").take 20
    if sub = "" then "Text" else sub
  else
    match obj.objType with
    | some t => if t = "" then "Object" else capitalizeFirst t
    | none => "Object"

/-- `obj.toDataURL(...)` renders a 40x40 png thumbnail through the external
graphics library; the render is a function of the object's state, which is
all any claim needs, so it is modelled as a canonical encoding of the
object record. -/
def FabricObject.toDataURL (obj : FabricObject) : String :=
  obj.id ++ "|" ++ obj.objType.getD "" ++ "|" ++ obj.text.getD "" ++ "|" ++
    toString obj.selectable ++ "|" ++ toString obj.evented ++ "|" ++ toString obj.visible

/-- `LayerData` (store module, lines 45-52). -/
structure LayerData where
  id : String
  name : String
  type? : Option String
  thumbnail : String
  locked : Bool
  visible : Bool
deriving DecidableEq

/-- One entry of the derived layer list (store module, lines 203-210):
`locked` is `!obj.selectable` and `visible` is `obj.visible || false`. -/
def layerOf (obj : FabricObject) : LayerData :=
  { id := obj.id
  , name := getObjectName obj
  , type? := obj.objType
  , thumbnail := obj.toDataURL
  , locked := !obj.selectable
  , visible := obj.visible || false }

/-- `updateLayers` (store module, lines 199-212): map the canvas objects to
layer entries and drop entries whose id is falsy (the empty string). -/
def updateLayers (objs : List FabricObject) : List LayerData :=
  (objs.map layerOf).filter fun layer => layer.id ≠ ""

/-- `toggleLayerVisibility` (store module, lines 247-257): `find` the first
object carrying the id and flip its `visible` flag in place (when no object
matches, nothing changes). -/
def toggleLayerVisibility (id : String) : List FabricObject → List FabricObject
  | [] => []
  | o :: rest =>
    if o.id = id then { o with visible := !o.visible } :: rest
    else o :: toggleLayerVisibility id rest

/-- `toggleLayerLock` (store module, lines 232-245): `find` the first object
carrying the id and flip its `selectable` and `evented` flags in place. -/
def toggleLayerLock (id : String) : List FabricObject → List FabricObject
  | [] => []
  | o :: rest =>
    if o.id = id then { o with selectable := !o.selectable, evented := !o.evented } :: rest
    else o :: toggleLayerLock id rest

theorem updateLayers_append (a b : List FabricObject) :
    updateLayers (a ++ b) = updateLayers a ++ updateLayers b := by
  simp [updateLayers, List.filter_append]

theorem updateLayers_cons (o : FabricObject) (b : List FabricObject) (h : o.id ≠ "") :
    updateLayers (o :: b) = layerOf o :: updateLayers b := by
  simp only [updateLayers, List.map_cons, List.filter_cons]
  rw [if_pos]
  simpa [layerOf] using h

theorem toggleLayerVisibility_split (a : List FabricObject) (o : FabricObject)
    (b : List FabricObject) (ha : ∀ p ∈ a, p.id ≠ o.id) :
    toggleLayerVisibility o.id (a ++ o :: b) = a ++ { o with visible := !o.visible } :: b := by
  induction a with
  | nil => simp [toggleLayerVisibility]
  | cons x xs ih =>
    have hx : x.id ≠ o.id := ha x (by simp)
    simp only [List.cons_append, toggleLayerVisibility, if_neg hx]
    exact congrArg (x :: ·) (ih fun p hp => ha p (by simp [hp]))

theorem toggleLayerLock_split (a : List FabricObject) (o : FabricObject)
    (b : List FabricObject) (ha : ∀ p ∈ a, p.id ≠ o.id) :
    toggleLayerLock o.id (a ++ o :: b) =
      a ++ { o with selectable := !o.selectable, evented := !o.evented } :: b := by
  induction a with
  | nil => simp [toggleLayerLock]
  | cons x xs ih =>
    have hx : x.id ≠ o.id := ha x (by simp)
    simp only [List.cons_append, toggleLayerLock, if_neg hx]
    exact congrArg (x :: ·) (ih fun p hp => ha p (by simp [hp]))

/-- C7: for an object whose (non-empty, canvas-unique) id appears in the
derived layer list, `toggleLayerVisibility` flips exactly that object's
`visible` flag and the layer list derived immediately afterwards shows the
negated `visible` (with `locked` untouched) at that layer's position, while
every other derived layer entry — the `pre` and `post` segments — is
unchanged; `toggleLayerLock` likewise flips the `selectable`/`evented`
flags, negating the derived `locked` and leaving `visible` untouched. -/
theorem claim_C7 (objs : List FabricObject) (o : FabricObject) (tid : String)
    (hnodup : (objs.map FabricObject.id).Nodup)
    (hmem : o ∈ objs) (hid : o.id = tid) (hney : tid ≠ "") :
    ∃ pre post,
      updateLayers objs = pre ++ layerOf o :: post ∧
      updateLayers (toggleLayerVisibility tid objs) =
        pre ++ layerOf { o with visible := !o.visible } :: post ∧
      (layerOf { o with visible := !o.visible }).visible = !(layerOf o).visible ∧
      (layerOf { o with visible := !o.visible }).locked = (layerOf o).locked ∧
      updateLayers (toggleLayerLock tid objs) =
        pre ++ layerOf { o with selectable := !o.selectable, evented := !o.evented } :: post ∧
      (layerOf { o with selectable := !o.selectable, evented := !o.evented }).locked
          = !(layerOf o).locked ∧
      (layerOf { o with selectable := !o.selectable, evented := !o.evented }).visible
          = (layerOf o).visible := by
  subst hid
  obtain ⟨a, b, rfl⟩ := List.append_of_mem hmem
  have ha : ∀ p ∈ a, p.id ≠ o.id := by
    intro p hp hcon
    rw [List.map_append, List.map_cons] at hnodup
    rcases List.nodup_append.mp hnodup with ⟨-, -, hdisj⟩
    exact hdisj (hcon ▸ List.mem_map_of_mem FabricObject.id hp) (List.mem_cons_self _ _)
  have hido : o.id ≠ "" := hney
  refine ⟨updateLayers a, updateLayers b, ?_, ?_, ?_, ?_, ?_, ?_, ?_⟩
  · rw [updateLayers_append, updateLayers_cons o b hido]
  · rw [toggleLayerVisibility_split a o b ha, updateLayers_append,
      updateLayers_cons { o with visible := !o.visible } b hido]
  · simp [layerOf]
  · simp [layerOf]
  · rw [toggleLayerLock_split a o b ha, updateLayers_append,
      updateLayers_cons { o with selectable := !o.selectable, evented := !o.evented } b hido]
  · simp [layerOf]
  · simp [layerOf]

/-- A concrete rectangle object for the C7 witness. -/
def objA : FabricObject :=
  { id := "a", objType := some "rect", text := none
  , selectable := true, evented := true, visible := true }

/-- A concrete i-text object for the C7 witness. -/
def objB : FabricObject :=
  { id := "b", objType := some "i-text", text := some "hello"
  , selectable := true, evented := true, visible := false }

/-- Witness for C7 on a two-object canvas, toggling the second object. -/
theorem claim_C7_witness :
    ∃ pre post,
      updateLayers [objA, objB] = pre ++ layerOf objB :: post ∧
      updateLayers (toggleLayerVisibility "b" [objA, objB]) =
        pre ++ layerOf { objB with visible := !objB.visible } :: post ∧
      (layerOf { objB with visible := !objB.visible }).visible = !(layerOf objB).visible ∧
      (layerOf { objB with visible := !objB.visible }).locked = (layerOf objB).locked ∧
      updateLayers (toggleLayerLock "b" [objA, objB]) =
        pre ++
          layerOf { objB with selectable := !objB.selectable, evented := !objB.evented } ::
            post ∧
      (layerOf { objB with selectable := !objB.selectable, evented := !objB.evented }).locked
          = !(layerOf objB).locked ∧
      (layerOf { objB with selectable := !objB.selectable, evented := !objB.evented }).visible
          = (layerOf objB).visible :=
  claim_C7 [objA, objB] objB "b" (by decide) (by decide) rfl (by decide)

/-! ### Identifier generation (C8)

Designs are keyed by `Date.now().toString()` (service module, line 22);
canvas objects receive `` `fabric_${Date.now()}` `` on `object:added`
(TattooCanvas.tsx, line 100), in `groupSelection` (store module, line 266)
and in the text tool (TattooCanvas.tsx, line 153).  Both generators are pure
functions of the millisecond clock reading. -/

/-- `` `fabric_${Date.now()}` `` as a function of the clock reading. -/
def objectIdOf (now : Nat) : String := "fabric_" ++ toString now

/-- C8 as stated by the spec: the id generators never assign the same
identifier to two distinct entities — distinct design saves always get
distinct ids and distinct object creations always get distinct ids,
whatever the clock readings. -/
def idGeneratorsNeverCollide : Prop :=
  (∀ (t1 t2 : Nat) (d1 d2 : DesignInput),
      (t1, d1) ≠ (t2, d2) → designIdOf t1 ≠ designIdOf t2) ∧
    ∀ (t1 t2 : Nat) (o1 o2 : FabricObject),
      (t1, o1) ≠ (t2, o2) → objectIdOf t1 ≠ objectIdOf t2

/-- Counterexample to C8 as stated: two distinct designs saved within the
same millisecond (`Date.now() = 0` for both) receive the identical id
`"0"`, so the generator does assign one identifier to two distinct
entities. -/
theorem claim_C8_counterexample : ¬ idGeneratorsNeverCollide := by
  intro h
  exact h.1 0 0 { canvas := "a", thumbnail := "", name := "", style := "" }
    { canvas := "b", thumbnail := "", name := "", style := "" } (by decide) rfl

/-- The decimal digit characters of `n`, most significant first: the
fuel-free specification of `Nat.toDigitsCore`. -/
def decDigits (n : Nat) : List Char :=
  if n < 10 then [Nat.digitChar n]
  else decDigits (n / 10) ++ [Nat.digitChar (n % 10)]
decreasing_by exact Nat.div_lt_self (by omega) (by omega)

theorem toDigitsCore_eq_decDigits :
    ∀ (f n : Nat) (acc : List Char), n < f →
      Nat.toDigitsCore 10 f n acc = decDigits n ++ acc := by
  intro f
  induction f with
  | zero => intro n acc h; omega
  | succ f ih =>
    intro n acc h
    rw [Nat.toDigitsCore]
    by_cases hdiv : n / 10 = 0
    · have hlt : n < 10 := by omega
      rw [if_pos hdiv, decDigits, if_pos hlt, Nat.mod_eq_of_lt hlt]
      rfl
    · have hge : ¬n < 10 := by omega
      have hrec : n / 10 < f := by
        have := Nat.div_lt_self (by omega : 0 < n) (by omega : 1 < 10)
        omega
      rw [if_neg hdiv, ih (n / 10) (Nat.digitChar (n % 10) :: acc) hrec]
      conv_rhs => rw [decDigits, if_neg hge, List.append_assoc]
      rfl

/-- Decode a decimal digit character. -/
def charVal (c : Char) : Nat := c.toNat - 48

/-- Read a decimal string left to right, extending the accumulator `a`. -/
def decodeFrom (a : Nat) (l : List Char) : Nat :=
  l.foldl (fun acc c => acc * 10 + charVal c) a

theorem charVal_digitChar : ∀ n < 10, charVal (Nat.digitChar n) = n := by decide

theorem decodeFrom_decDigits (n : Nat) :
    ∀ a : Nat, decodeFrom a (decDigits n) = a * 10 ^ (decDigits n).length + n := by
  induction n using Nat.strong_induction_on with
  | _ n ih =>
    intro a
    by_cases h : n < 10
    · rw [decDigits, if_pos h]
      simp [decodeFrom, charVal_digitChar n h]
    · rw [decDigits, if_neg h]
      have hrec : n / 10 < n := Nat.div_lt_self (by omega) (by omega)
      unfold decodeFrom
      rw [List.foldl_append]
      have hstep := ih (n / 10) hrec a
      unfold decodeFrom at hstep
      rw [hstep]
      simp only [List.foldl_cons, List.foldl_nil, List.length_append,
        List.length_singleton]
      have hmod : charVal (Nat.digitChar (n % 10)) = n % 10 :=
        charVal_digitChar (n % 10) (Nat.mod_lt n (by omega))
      rw [hmod, pow_succ]
      have hdm : n / 10 * 10 + n % 10 = n := by omega
      calc (a * 10 ^ (decDigits (n / 10)).length + n / 10) * 10 + n % 10
          = a * (10 ^ (decDigits (n / 10)).length * 10) + (n / 10 * 10 + n % 10) := by ring
        _ = a * (10 ^ (decDigits (n / 10)).length * 10) + n := by rw [hdm]

theorem decDigits_injective (m n : Nat) (h : decDigits m = decDigits n) : m = n := by
  have hm := decodeFrom_decDigits m 0
  have hn := decodeFrom_decDigits n 0
  rw [h] at hm
  simp at hm hn
  omega

theorem natRepr_injective (m n : Nat) (h : Nat.repr m = Nat.repr n) : m = n := by
  apply decDigits_injective
  have hdig : Nat.toDigits 10 m = Nat.toDigits 10 n := by
    have hd := congrArg String.data h
    simpa [Nat.repr, List.asString] using hd
  rw [Nat.toDigits, Nat.toDigits,
    toDigitsCore_eq_decDigits (m + 1) m [] (by omega),
    toDigitsCore_eq_decDigits (n + 1) n [] (by omega)] at hdig
  simpa using hdig

theorem string_data_injective (s t : String) (h : s.data = t.data) : s = t := by
  cases s with
  | mk d1 =>
    cases t with
    | mk d2 => exact congrArg String.mk (by simpa using h)

/-- C8 (amended): the generators are injective in the clock reading — two
design saves, or two object creations, at distinct `Date.now()` readings
receive distinct identifiers.  (As the counterexample shows, entities
created within one millisecond share an identifier, so distinctness of the
readings is exactly what the code guarantees uniqueness under.) -/
theorem claim_C8 (t1 t2 : Nat) (h : t1 ≠ t2) :
    designIdOf t1 ≠ designIdOf t2 ∧ objectIdOf t1 ≠ objectIdOf t2 := by
  constructor
  · intro hc
    exact h (natRepr_injective t1 t2 hc)
  · intro hc
    apply h
    apply natRepr_injective
    apply string_data_injective
    have hd := congrArg String.data hc
    simp only [objectIdOf] at hd
    rw [String.data_append, String.data_append] at hd
    exact List.append_cancel_left hd

/-- Witness for C8 at two consecutive clock readings. -/
theorem claim_C8_witness :
    designIdOf 1000 ≠ designIdOf 1001 ∧ objectIdOf 1000 ≠ objectIdOf 1001 :=
  claim_C8 1000 1001 (by decide)

end InkGenius
